import Mathlib

/-!
A shallow embedding of the debt-snowball calculation engine
(`src/lib/debtCalculations.ts`): the data model, the snowball payment-plan
simulator, the minimum-payments-only baseline, and proofs about their
behaviour.  JavaScript numbers are modelled as exact rationals; the
`round2` helper mirrors `Math.round((n + Number.EPSILON) * 100) / 100`
with `Number.EPSILON = 2⁻⁵²` kept as an explicit rational.
-/

-- Rational arithmetic is used to evaluate the simulator on concrete
-- inputs inside proofs; the library marks these operations irreducible
-- for elaboration performance, which would block that evaluation.
set_option allowUnsafeReducibility true in
attribute [semireducible] Rat.add Rat.mul Rat.sub Rat.div Rat.inv

namespace DebtCalc

/-- The `Debt` record, mirroring the `Debt` interface. -/
structure Debt where
  id : String
  name : String
  balance : ℚ
  interestRate : ℚ
  minimumPayment : ℚ
  startDate : String
deriving DecidableEq

/-- One per-debt ledger row of a simulated month (the element type of
`PaymentMonth.debts`). -/
structure DebtRow where
  id : String
  name : String
  startingBalance : ℚ
  payment : ℚ
  interestPaid : ℚ
  principalPaid : ℚ
  endingBalance : ℚ
  isCompleted : Bool
deriving DecidableEq

/-- One simulated month of the payment plan (`PaymentMonth`).  The calendar
date is modelled as the offset in months from the simulation's nominal
start date. -/
structure PaymentMonth where
  month : ℕ
  date : ℕ
  debts : List DebtRow
  totalPayment : ℚ
  totalInterest : ℚ
  remainingDebts : ℕ
deriving DecidableEq

/-- The record returned by `calculateSnowballPlan`; `debtFreeDate` is the
offset in months from the nominal start date. -/
structure SnowballResult where
  paymentPlan : List PaymentMonth
  totalMonths : ℕ
  totalInterest : ℚ
  totalPaid : ℚ
  debtFreeDate : ℕ
deriving DecidableEq

/-- The distinct failure signalled by the simulator
(`throw new Error('INSUFFICIENT_BUDGET')`). -/
inductive SimError where
  | insufficientBudget
deriving DecidableEq

/-- JavaScript `Number.EPSILON` as an exact rational. -/
def jsEps : ℚ := 1 / 2 ^ 52

/-- The 2-decimal rounding helper `round2` of the source:
`Math.round((n + Number.EPSILON) * 100) / 100`, with JavaScript's
`Math.round x = ⌊x + 1/2⌋`. -/
def round2 (q : ℚ) : ℚ := (⌊(q + jsEps) * 100 + 1 / 2⌋ : ℤ) / 100

/-- Monthly interest of a balance: `(balance * (annualRate / 100)) / 12`. -/
def calculateMonthlyInterest (balance annualRate : ℚ) : ℚ :=
  balance * (annualRate / 100) / 12

/-- The snowball attack order: ascending balance (the comparator
`(a, b) => a.balance - b.balance`). -/
def balLE (a b : Debt) : Prop := a.balance ≤ b.balance

instance : DecidableRel balLE := fun a b => by
  unfold balLE; infer_instance

instance : IsTotal Debt balLE := ⟨fun a b => le_total a.balance b.balance⟩

instance : IsTrans Debt balLE := ⟨fun _ _ _ h h' => le_trans h h'⟩

/-- Stable sort ascending by balance (`sortDebtsBySnowball`).  JavaScript
`Array.prototype.sort` is stable and the comparator induces the total
preorder `balLE`, which determines the sorted output uniquely, so a stable
structural sort is an exact model. -/
def sortDebtsBySnowball (debts : List Debt) : List Debt :=
  List.insertionSort balLE debts

/-- The avalanche order: descending interest rate (the comparator
`(a, b) => b.interestRate - a.interestRate`). -/
def rateGE (a b : Debt) : Prop := b.interestRate ≤ a.interestRate

instance : DecidableRel rateGE := fun a b => by
  unfold rateGE; infer_instance

/-- Stable sort descending by interest rate (`sortDebtsByAvalanche`). -/
def sortDebtsByAvalanche (debts : List Debt) : List Debt :=
  List.insertionSort rateGE debts

/-- The ledger row pushed for a debt that is already paid off
(`debt.balance <= 0` branch of the month walk). -/
def closedRow (d : Debt) : DebtRow :=
  { id := d.id, name := d.name, startingBalance := 0, payment := 0,
    interestPaid := 0, principalPaid := 0, endingBalance := 0,
    isCompleted := true }

/-- Output of one month's walk over the working debts: the ledger rows, the
updated working debts, and the month's payment and interest sums. -/
structure WalkOut where
  rows : List DebtRow
  debts : List Debt
  pay : ℚ
  interest : ℚ
deriving DecidableEq

/-- The `for (const debt of workingDebts)` walk of one simulated month,
threading the mutable `extraAmount` / `appliedExtraThisMonth` pair.  For an
open debt: `payment = minimumPayment`, plus all of `extraAmount` if the
extra has not yet been applied this month and is positive; then the payment
is capped at `balance + monthlyInterest` with the excess added back to
`extraAmount`; interest, principal and ending balance are booked with
`round2`. -/
def walkDebts : List Debt → ℚ → Bool → WalkOut
  | [], _, _ => ⟨[], [], 0, 0⟩
  | d :: rest, extra, applied =>
    if d.balance ≤ 0 then
      let w := walkDebts rest extra applied
      ⟨closedRow d :: w.rows, d :: w.debts, w.pay, w.interest⟩
    else
      let monthlyInterest := calculateMonthlyInterest d.balance d.interestRate
      let applyExtra := !applied && decide (0 < extra)
      let payment1 := if applyExtra then d.minimumPayment + extra else d.minimumPayment
      let applied1 := applied || applyExtra
      let extra1 := if applyExtra then 0 else extra
      let maxPayment := d.balance + monthlyInterest
      let payment := if maxPayment < payment1 then maxPayment else payment1
      let extra2 := if maxPayment < payment1 then extra1 + (payment1 - maxPayment) else extra1
      let interestPaid := round2 monthlyInterest
      let principalPaid := round2 (payment - interestPaid)
      let endingBalance := round2 (max 0 (d.balance - principalPaid))
      let row : DebtRow :=
        { id := d.id, name := d.name, startingBalance := d.balance,
          payment := payment, interestPaid := interestPaid,
          principalPaid := principalPaid, endingBalance := endingBalance,
          isCompleted := decide (endingBalance = 0) }
      let w := walkDebts rest extra2 applied1
      ⟨row :: w.rows, { d with balance := endingBalance } :: w.debts,
        payment + w.pay, interestPaid + w.interest⟩

/-- The month's `minimumTotal`: sum of minimum payments over the debts that
still have a positive balance. -/
def minimumTotal (wd : List Debt) : ℚ :=
  (wd.filter fun d => decide (0 < d.balance)).foldl (fun s d => s + d.minimumPayment) 0

/-- The month's `remainingDebts` count: how many debts still have a positive
balance before this month's payments. -/
def countOpen (wd : List Debt) : ℕ :=
  (wd.filter fun d => decide (0 < d.balance)).length

/-- Whether every working debt is paid off (negation of the `while` guard
`workingDebts.some(debt => debt.balance > 0)`). -/
def allClosed (wd : List Debt) : Bool :=
  wd.all fun d => decide (d.balance ≤ 0)

/-- The walk of one month starting from working debts `wd` with
`extraAmount = monthlyBudget - minimumTotal` and the applied flag reset. -/
def monthWalk (b : ℚ) (wd : List Debt) : WalkOut :=
  walkDebts wd (b - minimumTotal wd) false

/-- The `PaymentMonth` record assembled for month number `j` (1-based) from
working debts `wd`. -/
def mkMonth (b : ℚ) (j : ℕ) (wd : List Debt) : PaymentMonth :=
  { month := j, date := j - 1, debts := (monthWalk b wd).rows,
    totalPayment := (monthWalk b wd).pay,
    totalInterest := (monthWalk b wd).interest,
    remainingDebts := countOpen wd }

/-- The working debts after one simulated month. -/
def updDebts (b : ℚ) (wd : List Debt) : List Debt :=
  (monthWalk b wd).debts

/-- The month loop of `calculateSnowballPlan`.  Each iteration: stop when
all balances are zero; otherwise throw `INSUFFICIENT_BUDGET` when the open
debts' minimum total exceeds the budget; otherwise book the month and stop
once the month counter exceeds the 600-month safety ceiling.  The `fuel`
argument bounds the recursion; the loop body runs at most 601 times, so
`fuel = 601` at month 0 (maintaining `m + fuel = 601`) makes the
out-of-fuel branch unreachable. -/
def simLoop (b : ℚ) : ℕ → List Debt → ℕ → List PaymentMonth → ℚ → ℚ →
    Except SimError (List PaymentMonth × ℕ × ℚ × ℚ)
  | fuel, wd, m, plan, tI, tP =>
    if allClosed wd then .ok (plan, m, tI, tP)
    else
      match fuel with
      | 0 => .ok (plan, m, tI, tP)
      | fuel' + 1 =>
        if b < minimumTotal wd then .error .insufficientBudget
        else
          let mo := mkMonth b (m + 1) wd
          if 600 < m + 1 then
            .ok (plan ++ [mo], m + 1, tI + mo.totalInterest, tP + mo.totalPayment)
          else
            simLoop b fuel' (updDebts b wd) (m + 1) (plan ++ [mo])
              (tI + mo.totalInterest) (tP + mo.totalPayment)

/-- The simulator `calculateSnowballPlan`.  Degenerate inputs (empty debt list or
non-positive budget) return an empty plan; otherwise the debts are sorted
by the snowball order once and the month loop runs on working copies. -/
def calculateSnowballPlan (debts : List Debt) (monthlyBudget : ℚ) :
    Except SimError SnowballResult :=
  if debts.length = 0 ∨ monthlyBudget ≤ 0 then
    .ok { paymentPlan := [], totalMonths := 0, totalInterest := 0,
          totalPaid := 0, debtFreeDate := 0 }
  else
    match simLoop monthlyBudget 601 (sortDebtsBySnowball debts) 0 [] 0 0 with
    | .error e => .error e
    | .ok (plan, m, tI, tP) =>
      .ok { paymentPlan := plan, totalMonths := m, totalInterest := round2 tI,
            totalPaid := round2 tP, debtFreeDate := m }

/-- Month `k` (0-based) of the plan returned by `calculateSnowballPlan`, if
the call succeeds and the plan is that long. -/
def planMonth (debts : List Debt) (b : ℚ) (k : ℕ) : Option PaymentMonth :=
  (calculateSnowballPlan debts b).toOption.bind fun r => r.paymentPlan[k]?

/-- Ledger row `i` of month `k` (both 0-based) of the returned plan. -/
def planRow (debts : List Debt) (b : ℚ) (k i : ℕ) : Option DebtRow :=
  (planMonth debts b k).bind fun mo => mo.debts[i]?

/-- A rational that is a whole number of cents (booked to 2 decimals). -/
def twoDec (q : ℚ) : Prop := ∃ k : ℤ, q = (k : ℚ) / 100

/-- Result record of `calculateMinimumOnlyPlan`. -/
structure MinOnlyResult where
  totalMonths : ℤ
  totalInterest : ℚ
  totalPaid : ℚ
deriving DecidableEq

/-- A debt skipped by the baseline: `debt.balance === 0 || debt.minimumPayment === 0`. -/
def minOnlySkip (d : Debt) : Prop := d.balance = 0 ∨ d.minimumPayment = 0

instance (d : Debt) : Decidable (minOnlySkip d) := by
  unfold minOnlySkip; infer_instance

/-- The per-debt `while (balance > 0.01 && months < 600)` loop of the
baseline, returning the final month count and accumulated interest.  When
the minimum payment does not cover the month's interest the month count is
set to 600 and the loop stops.  The loop guard `months < 600` bounds the
iteration count, so `fuel = 600` makes the out-of-fuel branch
unreachable. -/
def minOnlyLoop (minPay monthlyRate : ℚ) : ℕ → ℚ → ℤ → ℚ → ℤ × ℚ
  | fuel, balance, months, interestPaid =>
    if 1 / 100 < balance ∧ months < 600 then
      match fuel with
      | 0 => (months, interestPaid)
      | fuel' + 1 =>
        let interestPayment := balance * monthlyRate
        let principalPayment := max 0 (minPay - interestPayment)
        if principalPayment ≤ 0 then (600, interestPaid)
        else
          minOnlyLoop minPay monthlyRate fuel' (balance - principalPayment)
            (months + 1) (interestPaid + interestPayment)
    else (months, interestPaid)

/-- The contribution of one (non-skipped) debt to the baseline: its month
count, its accrued interest, and its contribution to `totalPaid`. -/
def minOnlyDebt (d : Debt) : ℤ × ℚ × ℚ :=
  let monthlyRate := d.interestRate / 100 / 12
  if monthlyRate = 0 then
    (⌈d.balance / d.minimumPayment⌉, 0, d.balance)
  else
    let r := minOnlyLoop d.minimumPayment monthlyRate 600 d.balance 0 0
    (r.1, r.2, d.balance + r.2)

/-- The month count the baseline computes for one debt (0 for a skipped
debt, which contributes nothing to the aggregate). -/
def minOnlyMonths (d : Debt) : ℤ := (minOnlyDebt d).1

/-- The baseline `calculateMinimumOnlyPlan`: fold the per-debt baseline over the debt
list; `totalMonths` is the running maximum of the per-debt month counts. -/
def calculateMinimumOnlyPlan (debts : List Debt) : MinOnlyResult :=
  debts.foldl
    (fun acc d =>
      if minOnlySkip d then acc
      else
        { totalMonths := max acc.totalMonths (minOnlyDebt d).1,
          totalInterest := acc.totalInterest + (minOnlyDebt d).2.1,
          totalPaid := acc.totalPaid + (minOnlyDebt d).2.2 })
    ⟨0, 0, 0⟩

/-- The ledger row booked for an open debt `d` that pays `pay` this month
(after the cap), as constructed in the month walk. -/
def openRowOf (d : Debt) (pay : ℚ) : DebtRow :=
  { id := d.id, name := d.name, startingBalance := d.balance, payment := pay,
    interestPaid := round2 (calculateMonthlyInterest d.balance d.interestRate),
    principalPaid :=
      round2 (pay - round2 (calculateMonthlyInterest d.balance d.interestRate)),
    endingBalance :=
      round2 (max 0 (d.balance -
        round2 (pay - round2 (calculateMonthlyInterest d.balance d.interestRate)))),
    isCompleted :=
      decide (round2 (max 0 (d.balance -
        round2 (pay - round2 (calculateMonthlyInterest d.balance d.interestRate)))) = 0) }

/-- Concrete input: a small zero-interest debt that pays off in month one
of the two-debt rollover scenario. -/
def dSmall : Debt :=
  { id := "A", name := "A", balance := 30, interestRate := 0,
    minimumPayment := 10, startDate := "2026-01-01" }

/-- Concrete input: the larger zero-interest debt of the rollover
scenario. -/
def dBig : Debt :=
  { id := "B", name := "B", balance := 100, interestRate := 0,
    minimumPayment := 50, startDate := "2026-01-01" }

/-- Concrete input: a zero-interest debt that pays off in month one of the
trickle scenarios. -/
def dFirst : Debt :=
  { id := "C", name := "C", balance := 100, interestRate := 0,
    minimumPayment := 50, startDate := "2026-01-01" }

/-- Concrete input: a debt whose minimum payment 9.996 sits within half a
cent below its rounded monthly interest of 10. -/
def dTrickle : Debt :=
  { id := "D", name := "D", balance := 1000, interestRate := 12,
    minimumPayment := 9996 / 1000, startDate := "2026-01-01" }

/-- Concrete input: a debt whose minimum payment 5 is a full 5 below its
monthly interest of 10. -/
def dDeep : Debt :=
  { id := "E", name := "E", balance := 1000, interestRate := 12,
    minimumPayment := 5, startDate := "2026-01-01" }

/-- Concrete input family: a debt at 24% annual interest with minimum
payment 100, parameterised by its balance; with balance at least 10000 the
minimum never covers the interest and the balance grows forever. -/
def growDebt (bal : ℚ) : Debt :=
  { id := "G", name := "G", balance := bal, interestRate := 24,
    minimumPayment := 100, startDate := "2026-01-01" }

/-- Concrete input: a single debt paid off in exactly one month. -/
def dOne : Debt :=
  { id := "H", name := "H", balance := 10, interestRate := 0,
    minimumPayment := 10, startDate := "2026-01-01" }

/-- Concrete input: a baseline debt with balance exactly at the 1-cent
loop threshold, positive rate 100 and positive minimum payment equal to
its monthly interest. -/
def dEps : Debt :=
  { id := "F", name := "F", balance := 1 / 100, interestRate := 100,
    minimumPayment := 1 / 1200, startDate := "2026-01-01" }

/-- Concrete input: a baseline debt whose minimum payment 1 is below its
monthly interest 2. -/
def dStuck : Debt :=
  { id := "S", name := "S", balance := 100, interestRate := 24,
    minimumPayment := 1, startDate := "2026-01-01" }

/-- Month-1 ledger row of `dOne` under budget 100. -/
def rowOne : DebtRow :=
  { id := "H", name := "H", startingBalance := 10, payment := 10,
    interestPaid := 0, principalPaid := 10, endingBalance := 0,
    isCompleted := true }

/-- The single month of `calculateSnowballPlan [dOne] 100`. -/
def moOne : PaymentMonth :=
  { month := 1, date := 0, debts := [rowOne],
    totalPayment := 10, totalInterest := 0, remainingDebts := 1 }

/-- The full result of `calculateSnowballPlan [dOne] 100`. -/
def resOne : SnowballResult :=
  { paymentPlan := [moOne], totalMonths := 1, totalInterest := 0,
    totalPaid := 10, debtFreeDate := 1 }

instance : DecidableEq (Except SimError SnowballResult) := fun a b =>
  match a, b with
  | .error e1, .error e2 =>
    if h : e1 = e2 then isTrue (h ▸ rfl)
    else isFalse fun hh => h (Except.error.inj hh)
  | .error _, .ok _ => isFalse fun hh => Except.noConfusion hh
  | .ok _, .error _ => isFalse fun hh => Except.noConfusion hh
  | .ok r1, .ok r2 =>
    if h : r1 = r2 then isTrue (h ▸ rfl)
    else isFalse fun hh => h (Except.ok.inj hh)

/-- Month-1 row of `dSmall` in the two-debt rollover scenario: the extra 40
was applied, the payment was capped at the payoff 30, and the surplus 20
was carried into `extraAmount`. -/
def rowA1 : DebtRow :=
  { id := "A", name := "A", startingBalance := 30, payment := 30,
    interestPaid := 0, principalPaid := 30, endingBalance := 0,
    isCompleted := true }

/-- Month-1 row of `dBig` in the rollover scenario: it pays only its
minimum 50 although surplus 20 was available. -/
def rowB1 : DebtRow :=
  { id := "B", name := "B", startingBalance := 100, payment := 50,
    interestPaid := 0, principalPaid := 50, endingBalance := 50,
    isCompleted := false }

/-- Month-2 row of `dSmall` (already closed). -/
def rowA2 : DebtRow :=
  { id := "A", name := "A", startingBalance := 0, payment := 0,
    interestPaid := 0, principalPaid := 0, endingBalance := 0,
    isCompleted := true }

/-- Month-2 row of `dBig`. -/
def rowB2 : DebtRow :=
  { id := "B", name := "B", startingBalance := 50, payment := 50,
    interestPaid := 0, principalPaid := 50, endingBalance := 0,
    isCompleted := true }

/-- Month 1 of the rollover scenario `[dSmall, dBig]` under budget 100. -/
def moFirst : PaymentMonth :=
  { month := 1, date := 0, debts := [rowA1, rowB1],
    totalPayment := 80, totalInterest := 0, remainingDebts := 2 }

/-- Month 2 of the rollover scenario `[dSmall, dBig]` under budget 100. -/
def moSecond : PaymentMonth :=
  { month := 2, date := 1, debts := [rowA2, rowB2],
    totalPayment := 50, totalInterest := 0, remainingDebts := 1 }

/-- Month-1 row of `dTrickle` under `[dFirst, dTrickle]` and budget
109.996: its payment 9.996 is below its rounded interest 10, yet the
booked principal is 0, not negative. -/
def rowD1 : DebtRow :=
  { id := "D", name := "D", startingBalance := 1000, payment := 9996 / 1000,
    interestPaid := 10, principalPaid := 0, endingBalance := 1000,
    isCompleted := false }

/-- Month-1 row of `dDeep` under `[dFirst, dDeep]` and budget 155: its
payment 5 is a full 5 below its rounded interest 10. -/
def rowE1 : DebtRow :=
  { id := "E", name := "E", startingBalance := 1000, payment := 5,
    interestPaid := 10, principalPaid := -5, endingBalance := 1005,
    isCompleted := false }

/-- The property every booked ledger row satisfies: cent-level conservation
of payment into interest plus principal, cent-level consistency of the
balance update, 2-decimal booking of the rounded fields, and (for rows of
open debts) the exact `round2` booking equations. -/
def RowOK (row : DebtRow) : Prop :=
  |row.payment - (row.interestPaid + row.principalPaid)| ≤ 1 / 100 ∧
  |row.startingBalance - row.principalPaid - row.endingBalance| ≤ 1 / 100 ∧
  twoDec row.interestPaid ∧ twoDec row.principalPaid ∧ twoDec row.endingBalance ∧
  (0 < row.startingBalance →
    row.principalPaid = round2 (row.payment - row.interestPaid) ∧
    row.endingBalance = round2 (max 0 (row.startingBalance - row.principalPaid)))

end DebtCalc

namespace DebtCalc

theorem jsEps_pos : (0 : ℚ) < jsEps := by norm_num [jsEps]

theorem jsEps_small : jsEps ≤ 1 / 200 := by norm_num [jsEps]

theorem round2_le (q : ℚ) : round2 q ≤ q + jsEps + 1 / 200 := by
  have h := Int.floor_le ((q + jsEps) * 100 + 1 / 2)
  unfold round2
  rw [div_le_iff₀ (by norm_num : (0:ℚ) < 100)]
  linarith

theorem lt_round2 (q : ℚ) : q + jsEps - 1 / 200 < round2 q := by
  have h := Int.sub_one_lt_floor ((q + jsEps) * 100 + 1 / 2)
  unfold round2
  rw [lt_div_iff₀ (by norm_num : (0:ℚ) < 100)]
  linarith

theorem round2_mono {q r : ℚ} (h : q ≤ r) : round2 q ≤ round2 r := by
  unfold round2
  have : (⌊(q + jsEps) * 100 + 1 / 2⌋ : ℤ) ≤ ⌊(r + jsEps) * 100 + 1 / 2⌋ := by
    apply Int.floor_le_floor
    nlinarith
  exact (div_le_div_iff_of_pos_right (by norm_num : (0:ℚ) < 100)).mpr (by exact_mod_cast this)

theorem twoDec_round2 (q : ℚ) : twoDec (round2 q) :=
  ⟨⌊(q + jsEps) * 100 + 1 / 2⌋, rfl⟩

theorem round2_eq_self {q : ℚ} (h : twoDec q) : round2 q = q := by
  obtain ⟨k, rfl⟩ := h
  unfold round2
  have h1 : ((k : ℚ) / 100 + jsEps) * 100 + 1 / 2 = (k : ℚ) + (jsEps * 100 + 1 / 2) := by
    ring
  rw [h1, Int.floor_int_add]
  have h2 : ⌊jsEps * 100 + (1:ℚ) / 2⌋ = 0 := by
    rw [Int.floor_eq_zero_iff]
    constructor
    · norm_num [jsEps]
    · norm_num [jsEps]
  rw [h2, add_zero]

theorem twoDec_zero : twoDec 0 := ⟨0, by norm_num⟩

theorem round2_zero : round2 0 = 0 := round2_eq_self twoDec_zero

theorem twoDec_sub {q r : ℚ} (hq : twoDec q) (hr : twoDec r) : twoDec (q - r) := by
  obtain ⟨k, rfl⟩ := hq
  obtain ⟨l, rfl⟩ := hr
  exact ⟨k - l, by push_cast; ring⟩

theorem twoDec_add {q r : ℚ} (hq : twoDec q) (hr : twoDec r) : twoDec (q + r) := by
  obtain ⟨k, rfl⟩ := hq
  obtain ⟨l, rfl⟩ := hr
  exact ⟨k + l, by push_cast; ring⟩

theorem abs_round2_sub_le (q : ℚ) : |round2 q - q| ≤ 1 / 100 := by
  have h1 := round2_le q
  have h2 := lt_round2 q
  have h3 := jsEps_pos
  have h4 := jsEps_small
  rw [abs_le]
  constructor <;> linarith

theorem ite_lt_self_le (a b : ℚ) : (if a < b then a else b) ≤ a := by
  split
  · exact le_refl a
  · next h => exact le_of_not_lt h

theorem rowOK_closed (d : Debt) : RowOK (closedRow d) := by
  refine ⟨?_, ?_, twoDec_zero, twoDec_zero, twoDec_zero, ?_⟩
  · simp [closedRow]
  · simp [closedRow]
  · intro h
    simp [closedRow] at h

theorem walk_cons_neg (d : Debt) (rest : List Debt) (extra : ℚ) (applied : Bool)
    (hb : d.balance ≤ 0) :
    walkDebts (d :: rest) extra applied =
      ⟨closedRow d :: (walkDebts rest extra applied).rows,
       d :: (walkDebts rest extra applied).debts,
       (walkDebts rest extra applied).pay,
       (walkDebts rest extra applied).interest⟩ := by
  rw [walkDebts, if_pos hb]

theorem walk_cons_pos (d : Debt) (rest : List Debt) (extra : ℚ) (applied : Bool)
    (hb : ¬ d.balance ≤ 0) :
    ∃ pay ext app,
      walkDebts (d :: rest) extra applied =
        ⟨openRowOf d pay :: (walkDebts rest ext app).rows,
         { d with balance := (openRowOf d pay).endingBalance } ::
           (walkDebts rest ext app).debts,
         pay + (walkDebts rest ext app).pay,
         round2 (calculateMonthlyInterest d.balance d.interestRate) +
           (walkDebts rest ext app).interest⟩ ∧
      pay ≤ d.balance + calculateMonthlyInterest d.balance d.interestRate := by
  rw [walkDebts, if_neg hb]
  exact ⟨_, _, _, rfl, ite_lt_self_le _ _⟩

theorem rowOK_open (d : Debt) (pay : ℚ)
    (hpay : pay ≤ d.balance + calculateMonthlyInterest d.balance d.interestRate) :
    RowOK (openRowOf d pay) := by
  set mi := calculateMonthlyInterest d.balance d.interestRate with hmi
  have heps := jsEps_pos
  have heps2 := jsEps_small
  have hiP1 := round2_le mi
  have hiP2 := lt_round2 mi
  have hp1 := round2_le (pay - round2 mi)
  have hp2 := lt_round2 (pay - round2 mi)
  refine ⟨?_, ?_, twoDec_round2 mi, twoDec_round2 _, twoDec_round2 _, ?_⟩
  · show |pay - (round2 mi + round2 (pay - round2 mi))| ≤ 1 / 100
    rw [abs_le]
    constructor <;> linarith
  · show |d.balance - round2 (pay - round2 mi) -
      round2 (max 0 (d.balance - round2 (pay - round2 mi)))| ≤ 1 / 100
    rcases le_or_lt 0 (d.balance - round2 (pay - round2 mi)) with hc | hc
    · rw [max_eq_right hc]
      have h1 := round2_le (d.balance - round2 (pay - round2 mi))
      have h2 := lt_round2 (d.balance - round2 (pay - round2 mi))
      rw [abs_le]
      constructor <;> linarith
    · rw [max_eq_left (le_of_lt hc), round2_zero, abs_le]
      constructor <;> linarith
  · intro _
    exact ⟨rfl, rfl⟩

theorem walk_rows_ok :
    ∀ (l : List Debt) (extra : ℚ) (applied : Bool),
      ∀ row ∈ (walkDebts l extra applied).rows, RowOK row := by
  intro l
  induction l with
  | nil => intro extra applied row h; simp [walkDebts] at h
  | cons d rest ih =>
    intro extra applied row h
    by_cases hb : d.balance ≤ 0
    · rw [walk_cons_neg d rest extra applied hb] at h
      rcases List.mem_cons.mp h with hr | hr
      · exact hr ▸ rowOK_closed d
      · exact ih _ _ row hr
    · obtain ⟨pay, ext, app, heq, hpay⟩ := walk_cons_pos d rest extra applied hb
      rw [heq] at h
      rcases List.mem_cons.mp h with hr | hr
      · exact hr ▸ rowOK_open d pay hpay
      · exact ih _ _ row hr

theorem walk_lengths :
    ∀ (l : List Debt) (extra : ℚ) (applied : Bool),
      (walkDebts l extra applied).rows.length = l.length ∧
      (walkDebts l extra applied).debts.length = l.length := by
  intro l
  induction l with
  | nil => intro extra applied; simp [walkDebts]
  | cons d rest ih =>
    intro extra applied
    by_cases hb : d.balance ≤ 0
    · rw [walk_cons_neg d rest extra applied hb]
      simpa using ih extra applied
    · obtain ⟨pay, ext, app, heq, -⟩ := walk_cons_pos d rest extra applied hb
      rw [heq]
      simpa using ih ext app

theorem walk_ids :
    ∀ (l : List Debt) (extra : ℚ) (applied : Bool),
      (walkDebts l extra applied).rows.map DebtRow.id = l.map Debt.id ∧
      (walkDebts l extra applied).debts.map Debt.id = l.map Debt.id := by
  intro l
  induction l with
  | nil => intro extra applied; simp [walkDebts]
  | cons d rest ih =>
    intro extra applied
    by_cases hb : d.balance ≤ 0
    · rw [walk_cons_neg d rest extra applied hb]
      have h := ih extra applied
      simp only [List.map_cons, closedRow]
      exact ⟨by rw [h.1], by rw [h.2]⟩
    · obtain ⟨pay, ext, app, heq, -⟩ := walk_cons_pos d rest extra applied hb
      rw [heq]
      have h := ih ext app
      simp only [List.map_cons, openRowOf]
      exact ⟨by rw [h.1], by rw [h.2]⟩

theorem countOpen_cons (x : Debt) (l : List Debt) :
    countOpen (x :: l) = (if 0 < x.balance then 1 else 0) + countOpen l := by
  simp only [countOpen, List.filter_cons]
  split
  · next h =>
    rw [if_pos (of_decide_eq_true h)]
    simp [Nat.add_comm]
  · next h =>
    rw [if_neg (by simpa using h)]
    simp

theorem walk_countOpen_le :
    ∀ (l : List Debt) (extra : ℚ) (applied : Bool),
      countOpen (walkDebts l extra applied).debts ≤ countOpen l := by
  intro l
  induction l with
  | nil => intro extra applied; simp [walkDebts, countOpen]
  | cons d rest ih =>
    intro extra applied
    by_cases hb : d.balance ≤ 0
    · rw [walk_cons_neg d rest extra applied hb, countOpen_cons, countOpen_cons]
      have := ih extra applied
      omega
    · obtain ⟨pay, ext, app, heq, -⟩ := walk_cons_pos d rest extra applied hb
      rw [heq, countOpen_cons, countOpen_cons, if_pos (lt_of_not_le hb)]
      have h1 := ih ext app
      split <;> omega

theorem walk_nth :
    ∀ (l : List Debt) (extra : ℚ) (applied : Bool) (i : ℕ) (d : Debt),
      l[i]? = some d →
      ∃ row d2, (walkDebts l extra applied).rows[i]? = some row ∧
        (walkDebts l extra applied).debts[i]? = some d2 ∧
        ((d.balance ≤ 0 ∧ row = closedRow d ∧ d2 = d) ∨
         (0 < d.balance ∧ row.startingBalance = d.balance ∧
           d2.balance = row.endingBalance)) := by
  intro l
  induction l with
  | nil => intro extra applied i d h; simp at h
  | cons x rest ih =>
    intro extra applied i d h
    by_cases hb : x.balance ≤ 0
    · rw [walk_cons_neg x rest extra applied hb]
      cases i with
      | zero =>
        simp only [List.getElem?_cons_zero, Option.some_inj] at h
        subst h
        exact ⟨closedRow x, x, by simp, by simp, Or.inl ⟨hb, rfl, rfl⟩⟩
      | succ n =>
        simp only [List.getElem?_cons_succ] at h
        obtain ⟨row, d2, h1, h2, h3⟩ := ih extra applied n d h
        exact ⟨row, d2, by simpa using h1, by simpa using h2, h3⟩
    · obtain ⟨pay, ext, app, heq, -⟩ := walk_cons_pos x rest extra applied hb
      rw [heq]
      cases i with
      | zero =>
        simp only [List.getElem?_cons_zero, Option.some_inj] at h
        subst h
        exact ⟨openRowOf x pay, { x with balance := (openRowOf x pay).endingBalance },
          by simp, by simp, Or.inr ⟨lt_of_not_le hb, rfl, rfl⟩⟩
      | succ n =>
        simp only [List.getElem?_cons_succ] at h
        obtain ⟨row, d2, h1, h2, h3⟩ := ih ext app n d h
        exact ⟨row, d2, by simpa using h1, by simpa using h2, h3⟩

theorem simLoop_ok_spec (b : ℚ) :
    ∀ (fuel : ℕ) (wd : List Debt) (m : ℕ) (plan : List PaymentMonth) (tI tP : ℚ)
      (res : List PaymentMonth × ℕ × ℚ × ℚ),
      simLoop b fuel wd m plan tI tP = .ok res →
      ∃ n, n ≤ fuel ∧
        res.1 = plan ++ (List.range n).map
          (fun k => mkMonth b (m + k + 1) ((updDebts b)^[k] wd)) ∧
        res.2.1 = m + n := by
  intro fuel
  induction fuel with
  | zero =>
    intro wd m plan tI tP res h
    rw [simLoop] at h
    split at h <;>
      · injection h with h
        exact ⟨0, le_refl 0, by simp [← h], by simp [← h]⟩
  | succ f ih =>
    intro wd m plan tI tP res h
    rw [simLoop] at h
    split at h
    · injection h with h
      exact ⟨0, Nat.zero_le _, by simp [← h], by simp [← h]⟩
    · split at h
      · exact absurd h (by simp)
      · split at h
        · injection h with h
          refine ⟨1, by omega, ?_, by simp [← h]⟩
          simp [← h, List.range_succ]
        · obtain ⟨n, hn, hplan, hmonths⟩ := ih _ _ _ _ _ _ h
          refine ⟨n + 1, by omega, ?_, by omega⟩
          rw [hplan, List.range_succ_eq_map, List.map_cons, List.map_map]
          have hmap : (List.map ((fun k => mkMonth b (m + k + 1) ((updDebts b)^[k] wd)) ∘
              Nat.succ) (List.range n)) = List.map
              (fun k => mkMonth b (m + 1 + k + 1) ((updDebts b)^[k] (updDebts b wd)))
              (List.range n) := by
            apply List.map_congr_left
            intro k _
            simp only [Function.comp_apply, Function.iterate_succ_apply]
            congr 1
            omega
          rw [hmap]
          simp [List.append_assoc]

theorem simLoop_error_iff (b : ℚ) :
    ∀ (fuel : ℕ) (wd : List Debt) (m : ℕ) (plan : List PaymentMonth) (tI tP : ℚ),
      m + fuel = 601 →
      (simLoop b fuel wd m plan tI tP = .error .insufficientBudget ↔
        ∃ k, k < fuel ∧
          (∀ j, j < k → allClosed ((updDebts b)^[j] wd) = false ∧
            minimumTotal ((updDebts b)^[j] wd) ≤ b) ∧
          allClosed ((updDebts b)^[k] wd) = false ∧
          b < minimumTotal ((updDebts b)^[k] wd)) := by
  intro fuel
  induction fuel with
  | zero =>
    intro wd m plan tI tP hinv
    rw [simLoop]
    constructor
    · intro h
      split at h <;> exact absurd h (by simp)
    · rintro ⟨k, hk, -⟩
      omega
  | succ f ih =>
    intro wd m plan tI tP hinv
    rw [simLoop]
    by_cases hac : allClosed wd = true
    · rw [if_pos hac]
      constructor
      · intro h
        exact absurd h (by simp)
      · rintro ⟨k, hk, hj, ho, hlt⟩
        cases k with
        | zero => rw [Function.iterate_zero_apply] at ho; rw [ho] at hac; exact absurd hac (by simp)
        | succ n =>
          have := (hj 0 (Nat.succ_pos n)).1
          rw [Function.iterate_zero_apply] at this
          rw [this] at hac
          exact absurd hac (by simp)
    · rw [if_neg hac]
      rw [Bool.not_eq_true] at hac
      by_cases hmt : b < minimumTotal wd
      · rw [if_pos hmt]
        constructor
        · intro _
          exact ⟨0, Nat.succ_pos f, by omega, by simpa using hac, by simpa using hmt⟩
        · intro _
          rfl
      · rw [if_neg hmt]
        simp only
        by_cases hbreak : 600 < m + 1
        · rw [if_pos hbreak]
          constructor
          · intro h
            exact absurd h (by simp)
          · rintro ⟨k, hk, hj, ho, hlt⟩
            have hk0 : k = 0 := by omega
            subst hk0
            rw [Function.iterate_zero_apply] at hlt
            exact absurd hlt hmt
        · rw [if_neg hbreak]
          rw [ih (updDebts b wd) (m + 1) _ _ _ (by omega)]
          constructor
          · rintro ⟨k, hk, hj, ho, hlt⟩
            refine ⟨k + 1, by omega, ?_, ?_, ?_⟩
            · intro j hjk
              cases j with
              | zero =>
                exact ⟨by simpa using hac, by simpa using not_lt.mp hmt⟩
              | succ i =>
                have := hj i (by omega)
                rw [Function.iterate_succ_apply]
                exact this
            · rw [Function.iterate_succ_apply]
              exact ho
            · rw [Function.iterate_succ_apply]
              exact hlt
          · rintro ⟨k, hk, hj, ho, hlt⟩
            cases k with
            | zero =>
              rw [Function.iterate_zero_apply] at hlt
              exact absurd hlt hmt
            | succ n =>
              refine ⟨n, by omega, ?_, ?_, ?_⟩
              · intro j hjn
                have := hj (j + 1) (by omega)
                rw [Function.iterate_succ_apply] at this
                exact this
              · have := ho
                rw [Function.iterate_succ_apply] at this
                exact this
              · have := hlt
                rw [Function.iterate_succ_apply] at this
                exact this

theorem simLoop_full (b : ℚ) :
    ∀ (fuel : ℕ) (wd : List Debt) (m : ℕ) (plan : List PaymentMonth) (tI tP : ℚ),
      m + fuel = 601 →
      (∀ k, allClosed ((updDebts b)^[k] wd) = false ∧
        minimumTotal ((updDebts b)^[k] wd) ≤ b) →
      ∃ plan2 tI2 tP2,
        simLoop b fuel wd m plan tI tP = .ok (plan2, m + fuel, tI2, tP2) := by
  intro fuel
  induction fuel with
  | zero =>
    intro wd m plan tI tP hinv hall
    rw [simLoop]
    have h0 := hall 0
    rw [Function.iterate_zero_apply] at h0
    rw [if_neg (by simp [h0.1])]
    exact ⟨plan, tI, tP, by simp⟩
  | succ f ih =>
    intro wd m plan tI tP hinv hall
    rw [simLoop]
    have h0 := hall 0
    rw [Function.iterate_zero_apply] at h0
    rw [if_neg (by simp [h0.1]), if_neg (not_lt.mpr h0.2)]
    simp only
    by_cases hbreak : 600 < m + 1
    · rw [if_pos hbreak]
      have hf : f = 0 := by omega
      subst hf
      exact ⟨_, _, _, by rw [show m + 1 = m + 1 from rfl]⟩
    · rw [if_neg hbreak]
      have hshift : ∀ k, allClosed ((updDebts b)^[k] (updDebts b wd)) = false ∧
          minimumTotal ((updDebts b)^[k] (updDebts b wd)) ≤ b := by
        intro k
        have := hall (k + 1)
        rw [Function.iterate_succ_apply] at this
        exact this
      obtain ⟨plan2, tI2, tP2, hok⟩ := ih (updDebts b wd) (m + 1) _ _ _ (by omega) hshift
      refine ⟨plan2, tI2, tP2, ?_⟩
      rw [show m + (f + 1) = m + 1 + f by omega]
      exact hok

theorem calcOk_plan (ds : List Debt) (b : ℚ) (r : SnowballResult)
    (h : calculateSnowballPlan ds b = .ok r) :
    ∃ n, n ≤ 601 ∧
      r.paymentPlan = (List.range n).map
        (fun k => mkMonth b (k + 1) ((updDebts b)^[k] (sortDebtsBySnowball ds))) ∧
      r.totalMonths = n := by
  rw [calculateSnowballPlan] at h
  split at h
  · injection h with h
    exact ⟨0, by omega, by simp [← h], by simp [← h]⟩
  · split at h
    · exact absurd h (by simp)
    · next plan m tI tP heq =>
      injection h with h
      obtain ⟨n, hn, hplan, hm⟩ := simLoop_ok_spec b 601 _ 0 [] 0 0 _ heq
      refine ⟨n, hn, ?_, ?_⟩
      · rw [← h]
        simp only [List.nil_append] at hplan
        rw [hplan]
        apply List.map_congr_left
        intro k _
        rw [show 0 + k + 1 = k + 1 by omega]
      · rw [← h]
        simpa using hm

theorem planMonth_some (ds : List Debt) (b : ℚ) (k : ℕ) (mo : PaymentMonth)
    (h : planMonth ds b k = some mo) :
    mo = mkMonth b (k + 1) ((updDebts b)^[k] (sortDebtsBySnowball ds)) := by
  rw [planMonth] at h
  cases hres : calculateSnowballPlan ds b with
  | error e => rw [hres] at h; simp [Except.toOption] at h
  | ok r =>
    rw [hres] at h
    simp only [Except.toOption, Option.some_bind] at h
    obtain ⟨n, -, hplan, -⟩ := calcOk_plan ds b r hres
    rw [hplan, List.getElem?_map] at h
    rcases lt_or_ge k n with hk | hk
    · rw [List.getElem?_range hk] at h
      simp only [Option.map_some', Option.some_inj] at h
      exact h.symm
    · rw [List.getElem?_eq_none (by simpa using hk)] at h
      simp at h

theorem planRow_mem (ds : List Debt) (b : ℚ) (k i : ℕ) (row : DebtRow)
    (h : planRow ds b k i = some row) :
    ∃ wd, (monthWalk b wd).rows[i]? = some row ∧
      wd = (updDebts b)^[k] (sortDebtsBySnowball ds) := by
  rw [planRow] at h
  cases hmo : planMonth ds b k with
  | none => rw [hmo] at h; simp at h
  | some mo =>
    rw [hmo] at h
    simp only [Option.some_bind] at h
    have := planMonth_some ds b k mo hmo
    subst this
    exact ⟨_, h, rfl⟩

theorem planRow_ok (ds : List Debt) (b : ℚ) (k i : ℕ) (row : DebtRow)
    (h : planRow ds b k i = some row) : RowOK row := by
  obtain ⟨wd, hrow, -⟩ := planRow_mem ds b k i row h
  have hm : row ∈ (monthWalk b wd).rows := by
    rcases List.getElem?_eq_some_iff.mp hrow with ⟨hlen, hget⟩
    exact hget ▸ List.getElem_mem hlen
  exact walk_rows_ok wd _ false row hm

theorem updDebts_closed_step (b : ℚ) (wd : List Debt) (i : ℕ) (d : Debt)
    (h : wd[i]? = some d) (hb : d.balance ≤ 0) :
    (updDebts b wd)[i]? = some d := by
  obtain ⟨row, d2, -, h2, h3⟩ := walk_nth wd (b - minimumTotal wd) false i d h
  rcases h3 with ⟨-, -, rfl⟩ | ⟨hpos, -, -⟩
  · exact h2
  · exact absurd hpos (not_lt.mpr hb)

theorem updDebts_iter_closed (b : ℚ) (wd : List Debt) (i : ℕ) (d : Debt)
    (h : wd[i]? = some d) (hb : d.balance ≤ 0) :
    ∀ j, ((updDebts b)^[j] wd)[i]? = some d := by
  intro j
  induction j with
  | zero => simpa using h
  | succ n ih =>
    rw [Function.iterate_succ_apply']
    exact updDebts_closed_step b _ i d ih hb

theorem month_row_closes (b : ℚ) (wd : List Debt) (i : ℕ) (row : DebtRow)
    (h : (monthWalk b wd).rows[i]? = some row) (hend : row.endingBalance = 0) :
    ∃ d2, (updDebts b wd)[i]? = some d2 ∧ d2.balance ≤ 0 := by
  rw [monthWalk] at h
  have hlen := (walk_lengths wd (b - minimumTotal wd) false).1
  have hi : i < wd.length := by
    rcases List.getElem?_eq_some_iff.mp h with ⟨hlt, -⟩
    exact hlen ▸ hlt
  obtain ⟨row2, d2, h1, h2, h3⟩ :=
    walk_nth wd (b - minimumTotal wd) false i (wd[i]) (List.getElem?_eq_getElem hi)
  have hrw : row2 = row := by
    rw [h] at h1
    exact (Option.some_inj.mp h1).symm
  subst hrw
  rcases h3 with ⟨hcl, hrow, rfl⟩ | ⟨-, -, hbal⟩
  · exact ⟨_, h2, hcl⟩
  · exact ⟨d2, h2, by rw [hbal, hend]⟩

theorem month_row_of_closed (b : ℚ) (wd : List Debt) (i : ℕ) (d : Debt)
    (h : wd[i]? = some d) (hb : d.balance ≤ 0) :
    (monthWalk b wd).rows[i]? = some (closedRow d) := by
  obtain ⟨row, d2, h1, -, h3⟩ := walk_nth wd (b - minimumTotal wd) false i d h
  rcases h3 with ⟨-, rfl, -⟩ | ⟨hpos, -, -⟩
  · exact h1
  · exact absurd hpos (not_lt.mpr hb)

theorem minTotal_singleton_open (d : Debt) (h : 0 < d.balance) :
    minimumTotal [d] = d.minimumPayment := by
  simp [minimumTotal, List.filter_cons, h]

theorem allClosed_singleton_open (d : Debt) (h : 0 < d.balance) :
    allClosed [d] = false := by
  simp [allClosed, not_le.mpr h]

theorem walk_single_noextra (d : Debt) (hb : ¬ d.balance ≤ 0)
    (hcap : ¬ d.balance + calculateMonthlyInterest d.balance d.interestRate <
      d.minimumPayment) :
    walkDebts [d] 0 false =
      ⟨[openRowOf d d.minimumPayment],
       [{ d with balance := (openRowOf d d.minimumPayment).endingBalance }],
       d.minimumPayment + 0,
       round2 (calculateMonthlyInterest d.balance d.interestRate) + 0⟩ := by
  rw [walkDebts, if_neg hb]
  have h0 : decide ((0:ℚ) < 0) = false := by simp
  simp only [h0, Bool.and_false, Bool.false_eq_true, if_false, if_neg hcap]
  rfl

theorem growDebt_interest (bal : ℚ) :
    calculateMonthlyInterest bal 24 = bal / 50 := by
  unfold calculateMonthlyInterest
  ring

theorem grow_upd (bal : ℚ) (h1 : 10000 ≤ bal) (h2 : twoDec bal) :
    ∃ bal2, updDebts 100 [growDebt bal] = [growDebt bal2] ∧
      10000 ≤ bal2 ∧ twoDec bal2 := by
  have hpos : (0:ℚ) < bal := by linarith
  have hbal : (growDebt bal).balance = bal := rfl
  have hopen : ¬ (growDebt bal).balance ≤ 0 := by
    rw [hbal]; exact not_le.mpr hpos
  have hmi : calculateMonthlyInterest (growDebt bal).balance (growDebt bal).interestRate
      = bal / 50 := by
    rw [show (growDebt bal).interestRate = 24 from rfl, hbal, growDebt_interest]
  have hiPtwo : twoDec (round2 (bal / 50)) := twoDec_round2 _
  have hiP200 : (200:ℚ) ≤ round2 (bal / 50) := by
    have : round2 (200:ℚ) ≤ round2 (bal / 50) := round2_mono (by linarith)
    rwa [round2_eq_self ⟨20000, by norm_num⟩] at this
  have hcap : ¬ (growDebt bal).balance +
      calculateMonthlyInterest (growDebt bal).balance (growDebt bal).interestRate <
      (growDebt bal).minimumPayment := by
    rw [hbal, show (growDebt bal).interestRate = 24 from rfl,
      show (growDebt bal).minimumPayment = 100 from rfl, growDebt_interest]
    push_neg
    linarith
  have hmain := walk_single_noextra (growDebt bal) hopen hcap
  have hmin100 : minimumTotal [growDebt bal] = 100 :=
    minTotal_singleton_open (growDebt bal) (by rw [hbal]; exact hpos)
  have hupd : updDebts 100 [growDebt bal] =
      [{ growDebt bal with balance :=
        (openRowOf (growDebt bal) (growDebt bal).minimumPayment).endingBalance }] := by
    rw [updDebts, monthWalk, hmin100, sub_self, hmain]
  set iP := round2 (bal / 50) with hiPdef
  have hprin : round2 ((growDebt bal).minimumPayment - round2
      (calculateMonthlyInterest (growDebt bal).balance (growDebt bal).interestRate))
      = 100 - iP := by
    rw [show (growDebt bal).minimumPayment = 100 from rfl, hmi, ← hiPdef]
    exact round2_eq_self (twoDec_sub ⟨10000, by norm_num⟩ hiPtwo)
  have hend : (openRowOf (growDebt bal) (growDebt bal).minimumPayment).endingBalance
      = bal - 100 + iP := by
    show round2 (max 0 ((growDebt bal).balance - round2 ((growDebt bal).minimumPayment -
      round2 (calculateMonthlyInterest (growDebt bal).balance
        (growDebt bal).interestRate)))) = bal - 100 + iP
    rw [hprin, hbal]
    rw [max_eq_right (by linarith)]
    rw [show bal - (100 - iP) = bal - 100 + iP by ring]
    exact round2_eq_self (twoDec_add (twoDec_sub h2 ⟨10000, by norm_num⟩) hiPtwo)
  refine ⟨bal - 100 + iP, ?_, by linarith, ?_⟩
  · rw [hupd, hend]
    rfl
  · exact twoDec_add (twoDec_sub h2 ⟨10000, by norm_num⟩) hiPtwo

theorem grow_invariant (bal0 : ℚ) (h1 : 10000 ≤ bal0) (h2 : twoDec bal0) :
    ∀ k, ∃ bal, (updDebts 100)^[k] [growDebt bal0] = [growDebt bal] ∧
      10000 ≤ bal ∧ twoDec bal := by
  intro k
  induction k with
  | zero => exact ⟨bal0, by simp, h1, h2⟩
  | succ n ih =>
    obtain ⟨bal, heq, hb1, hb2⟩ := ih
    obtain ⟨bal2, heq2, hc1, hc2⟩ := grow_upd bal hb1 hb2
    exact ⟨bal2, by rw [Function.iterate_succ_apply', heq, heq2], hc1, hc2⟩

theorem grow_run (bal0 : ℚ) (h1 : 10000 ≤ bal0) (h2 : twoDec bal0) :
    (calculateSnowballPlan [growDebt bal0] 100).toOption.map
      SnowballResult.totalMonths = some 601 := by
  have hall : ∀ k, allClosed ((updDebts 100)^[k] [growDebt bal0]) = false ∧
      minimumTotal ((updDebts 100)^[k] [growDebt bal0]) ≤ 100 := by
    intro k
    obtain ⟨bal, heq, hb1, -⟩ := grow_invariant bal0 h1 h2 k
    rw [heq]
    constructor
    · exact allClosed_singleton_open _ (by show (0:ℚ) < bal; linarith)
    · rw [minTotal_singleton_open _ (by show (0:ℚ) < bal; linarith)]
      norm_num [growDebt]
  obtain ⟨plan2, tI2, tP2, hok⟩ := simLoop_full 100 601 [growDebt bal0] 0 [] 0 0 rfl hall
  rw [calculateSnowballPlan]
  rw [if_neg (by norm_num)]
  rw [show sortDebtsBySnowball [growDebt bal0] = [growDebt bal0] from rfl]
  rw [hok]
  rfl

theorem updDebts_iter_ids (b : ℚ) (wd : List Debt) :
    ∀ k, ((updDebts b)^[k] wd).map Debt.id = wd.map Debt.id := by
  intro k
  induction k with
  | zero => simp
  | succ n ih =>
    rw [Function.iterate_succ_apply']
    rw [show updDebts b ((updDebts b)^[n] wd) =
      (walkDebts ((updDebts b)^[n] wd) (b - minimumTotal ((updDebts b)^[n] wd)) false).debts
      from rfl]
    rw [(walk_ids _ _ _).2, ih]

theorem minOnlyLoop_stuck (minPay mr : ℚ) (f : ℕ) (balance : ℚ) (months : ℤ) (ip : ℚ)
    (hguard : 1 / 100 < balance ∧ months < 600)
    (hstuck : minPay - balance * mr ≤ 0) :
    minOnlyLoop minPay mr (f + 1) balance months ip = (600, ip) := by
  rw [minOnlyLoop, if_pos hguard]
  show (if max 0 (minPay - balance * mr) ≤ 0 then ((600:ℤ), ip)
    else minOnlyLoop minPay mr f (balance - max 0 (minPay - balance * mr))
      (months + 1) (ip + balance * mr)) = (600, ip)
  rw [if_pos (max_le (le_refl 0) hstuck)]

theorem minOnly_nonconvergent (d : Debt) (hb : 1 / 100 < d.balance)
    (hr : d.interestRate / 100 / 12 ≠ 0)
    (hmin : d.minimumPayment ≤ d.balance * (d.interestRate / 100 / 12)) :
    minOnlyMonths d = 600 := by
  rw [minOnlyMonths, minOnlyDebt, if_neg hr]
  simp only
  rw [show (600:ℕ) = 599 + 1 from rfl]
  rw [minOnlyLoop_stuck d.minimumPayment (d.interestRate / 100 / 12) 599 d.balance 0 0
    ⟨hb, by norm_num⟩ (by linarith)]

theorem minOnlyFold_months (ds : List Debt) :
    ∀ acc : MinOnlyResult,
      acc.totalMonths ≤ (ds.foldl
        (fun acc d =>
          if minOnlySkip d then acc
          else
            { totalMonths := max acc.totalMonths (minOnlyDebt d).1,
              totalInterest := acc.totalInterest + (minOnlyDebt d).2.1,
              totalPaid := acc.totalPaid + (minOnlyDebt d).2.2 }) acc).totalMonths ∧
      (∀ d ∈ ds, ¬ minOnlySkip d → (minOnlyDebt d).1 ≤ (ds.foldl
        (fun acc d =>
          if minOnlySkip d then acc
          else
            { totalMonths := max acc.totalMonths (minOnlyDebt d).1,
              totalInterest := acc.totalInterest + (minOnlyDebt d).2.1,
              totalPaid := acc.totalPaid + (minOnlyDebt d).2.2 }) acc).totalMonths) ∧
      ((ds.foldl
        (fun acc d =>
          if minOnlySkip d then acc
          else
            { totalMonths := max acc.totalMonths (minOnlyDebt d).1,
              totalInterest := acc.totalInterest + (minOnlyDebt d).2.1,
              totalPaid := acc.totalPaid + (minOnlyDebt d).2.2 }) acc).totalMonths
        = acc.totalMonths ∨
       ∃ d ∈ ds, ¬ minOnlySkip d ∧ (minOnlyDebt d).1 = (ds.foldl
        (fun acc d =>
          if minOnlySkip d then acc
          else
            { totalMonths := max acc.totalMonths (minOnlyDebt d).1,
              totalInterest := acc.totalInterest + (minOnlyDebt d).2.1,
              totalPaid := acc.totalPaid + (minOnlyDebt d).2.2 }) acc).totalMonths) := by
  induction ds with
  | nil =>
    intro acc
    exact ⟨le_refl _, by simp, Or.inl rfl⟩
  | cons d rest ih =>
    intro acc
    rw [List.foldl_cons]
    by_cases hskip : minOnlySkip d
    · rw [if_pos hskip]
      obtain ⟨h1, h2, h3⟩ := ih acc
      refine ⟨h1, ?_, ?_⟩
      · intro x hx hnsk
        rcases List.mem_cons.mp hx with rfl | hx
        · exact absurd hskip hnsk
        · exact h2 x hx hnsk
      · rcases h3 with h3 | ⟨x, hx, hnsk, hm⟩
        · exact Or.inl h3
        · exact Or.inr ⟨x, List.mem_cons_of_mem d hx, hnsk, hm⟩
    · rw [if_neg hskip]
      obtain ⟨h1, h2, h3⟩ := ih
        { totalMonths := max acc.totalMonths (minOnlyDebt d).1,
          totalInterest := acc.totalInterest + (minOnlyDebt d).2.1,
          totalPaid := acc.totalPaid + (minOnlyDebt d).2.2 }
      refine ⟨le_trans (le_max_left _ _) h1, ?_, ?_⟩
      · intro x hx hnsk
        rcases List.mem_cons.mp hx with rfl | hx
        · exact le_trans (le_max_right _ _) h1
        · exact h2 x hx hnsk
      · rcases h3 with h3 | ⟨x, hx, hnsk, hm⟩
        · rcases le_total (minOnlyDebt d).1 acc.totalMonths with hc | hc
          · exact Or.inl (h3.trans (max_eq_left hc))
          · exact Or.inr ⟨d, List.mem_cons_self d rest, hskip,
              (max_eq_right hc).symm.trans h3.symm⟩
        · exact Or.inr ⟨x, List.mem_cons_of_mem d hx, hnsk, hm⟩

theorem minOnlyPlan_months_le (ds : List Debt) (d : Debt) (hd : d ∈ ds)
    (hns : ¬ minOnlySkip d) :
    minOnlyMonths d ≤ (calculateMinimumOnlyPlan ds).totalMonths :=
  (minOnlyFold_months ds ⟨0, 0, 0⟩).2.1 d hd hns

theorem minOnlyPlan_months_attained (ds : List Debt) :
    (calculateMinimumOnlyPlan ds).totalMonths = 0 ∨
    ∃ d ∈ ds, ¬ minOnlySkip d ∧
      minOnlyMonths d = (calculateMinimumOnlyPlan ds).totalMonths :=
  (minOnlyFold_months ds ⟨0, 0, 0⟩).2.2

/-- C2: `calculateSnowballPlan` signals the distinct `InsufficientBudget`
failure, with no partial result, exactly when some simulated month (within
the safety horizon) still has an open debt and the open debts' minimum
total exceeds the monthly budget; and `InsufficientBudget` is the only
failure it ever signals. -/
theorem C2_insufficient_budget_iff :
    (∀ (ds : List Debt) (b : ℚ),
      calculateSnowballPlan ds b = .error .insufficientBudget ↔
        (¬ (ds.length = 0 ∨ b ≤ 0) ∧
         ∃ k, k ≤ 600 ∧
           (∀ j, j < k →
             allClosed ((updDebts b)^[j] (sortDebtsBySnowball ds)) = false ∧
             minimumTotal ((updDebts b)^[j] (sortDebtsBySnowball ds)) ≤ b) ∧
           allClosed ((updDebts b)^[k] (sortDebtsBySnowball ds)) = false ∧
           b < minimumTotal ((updDebts b)^[k] (sortDebtsBySnowball ds)))) ∧
    (∀ (ds : List Debt) (b : ℚ) (e : SimError),
      calculateSnowballPlan ds b = .error e → e = .insufficientBudget) := by
  constructor
  · intro ds b
    rw [calculateSnowballPlan]
    split
    · next hdeg =>
      constructor
      · intro h
        exact absurd h (by simp)
      · rintro ⟨hnd, -⟩
        exact absurd hdeg hnd
    · next hdeg =>
      have hiff := simLoop_error_iff b 601 (sortDebtsBySnowball ds) 0 [] 0 0 (by norm_num)
      constructor
      · intro h
        split at h
        · next e heq =>
          cases e
          rw [hiff] at heq
          obtain ⟨k, hk, hj, ho, hlt⟩ := heq
          exact ⟨hdeg, k, by omega, hj, ho, hlt⟩
        · next heq =>
          exact absurd h (by simp)
      · rintro ⟨-, k, hk, hj, ho, hlt⟩
        have hsim : simLoop b 601 (sortDebtsBySnowball ds) 0 [] 0 0 =
            .error .insufficientBudget := hiff.mpr ⟨k, by omega, hj, ho, hlt⟩
        rw [hsim]
  · intro ds b e h
    cases e
    rfl

set_option maxRecDepth 40000 in
/-- C2 witness: on `[dSmall, dBig]` with budget 50 the simulator signals
`InsufficientBudget`, and the characterisation produces the offending
month. -/
theorem C2_witness :
    ∃ k, k ≤ 600 ∧
      (∀ j, j < k →
        allClosed ((updDebts 50)^[j] (sortDebtsBySnowball [dSmall, dBig])) = false ∧
        minimumTotal ((updDebts 50)^[j] (sortDebtsBySnowball [dSmall, dBig])) ≤ 50) ∧
      allClosed ((updDebts 50)^[k] (sortDebtsBySnowball [dSmall, dBig])) = false ∧
      (50:ℚ) < minimumTotal ((updDebts 50)^[k] (sortDebtsBySnowball [dSmall, dBig])) :=
  ((C2_insufficient_budget_iff.1 [dSmall, dBig] 50).mp (by decide)).2

/-- C3 counterexample: a single debt whose minimum payment never covers
its interest runs to the safety ceiling and the returned `totalMonths` is
601, not at most 600 — the loop increments the month counter, books the
month, and only then breaks when the counter exceeds 600. -/
theorem C3_counterexample :
    (calculateSnowballPlan [growDebt 10000] 100).toOption.map
      SnowballResult.totalMonths = some 601 ∧ ¬ (601 ≤ 600) :=
  ⟨grow_run 10000 (le_refl _) ⟨1000000, by norm_num⟩, by omega⟩

/-- C3 (amended): whenever `calculateSnowballPlan` returns a result, the
returned `totalMonths` is at most 601, the length of `paymentPlan` equals
`totalMonths`, and reaching the ceiling still yields a normal result
rather than an error. -/
theorem C3_termination_ceiling (ds : List Debt) (b : ℚ) (r : SnowballResult)
    (h : calculateSnowballPlan ds b = .ok r) :
    r.totalMonths ≤ 601 ∧ r.paymentPlan.length = r.totalMonths := by
  obtain ⟨n, hn, hplan, hm⟩ := calcOk_plan ds b r h
  refine ⟨by omega, ?_⟩
  rw [hplan, hm]
  simp

set_option maxRecDepth 40000 in
/-- C3 witness: the bound instantiated on a concrete one-month plan. -/
theorem C3_witness :
    resOne.totalMonths ≤ 601 ∧ resOne.paymentPlan.length = resOne.totalMonths :=
  C3_termination_ceiling [dOne] 100 resOne (by decide)

/-- C5: every ledger row of every month of a returned plan books
`interestPaid`, `principalPaid` and `endingBalance` rounded to two
decimals, with `payment = interestPaid + principalPaid` and
`startingBalance - principalPaid = endingBalance` each holding to within
one cent. -/
theorem C5_row_conservation (ds : List Debt) (b : ℚ) (k i : ℕ) (row : DebtRow)
    (h : planRow ds b k i = some row) :
    |row.payment - (row.interestPaid + row.principalPaid)| ≤ 1 / 100 ∧
    |row.startingBalance - row.principalPaid - row.endingBalance| ≤ 1 / 100 ∧
    twoDec row.interestPaid ∧ twoDec row.principalPaid ∧
    twoDec row.endingBalance := by
  have hok := planRow_ok ds b k i row h
  exact ⟨hok.1, hok.2.1, hok.2.2.1, hok.2.2.2.1, hok.2.2.2.2.1⟩

set_option maxRecDepth 40000 in
/-- C5 witness: conservation instantiated on the month-1 row of `dOne`. -/
theorem C5_witness :
    |rowOne.payment - (rowOne.interestPaid + rowOne.principalPaid)| ≤ 1 / 100 ∧
    |rowOne.startingBalance - rowOne.principalPaid - rowOne.endingBalance| ≤ 1 / 100 ∧
    twoDec rowOne.interestPaid ∧ twoDec rowOne.principalPaid ∧
    twoDec rowOne.endingBalance :=
  C5_row_conservation [dOne] 100 0 0 rowOne (by decide)

/-- C6: `remainingDebts` never increases from one month of a returned plan
to the next, and once a debt's row shows `endingBalance = 0` its rows in
all later months are zeroed (`startingBalance`, `payment`, `endingBalance`
all 0) with `isCompleted = true`. -/
theorem C6_monotone_and_persistent :
    (∀ (ds : List Debt) (b : ℚ) (k : ℕ) (ma mb : PaymentMonth),
      planMonth ds b k = some ma → planMonth ds b (k + 1) = some mb →
      mb.remainingDebts ≤ ma.remainingDebts) ∧
    (∀ (ds : List Debt) (b : ℚ) (k l i : ℕ) (ra rl : DebtRow),
      k < l → planRow ds b k i = some ra → planRow ds b l i = some rl →
      ra.endingBalance = 0 →
      rl.startingBalance = 0 ∧ rl.payment = 0 ∧ rl.endingBalance = 0 ∧
        rl.isCompleted = true) := by
  constructor
  · intro ds b k ma mb hma hmb
    have ha := planMonth_some ds b k ma hma
    have hb := planMonth_some ds b (k + 1) mb hmb
    subst ha
    subst hb
    show countOpen ((updDebts b)^[k + 1] (sortDebtsBySnowball ds)) ≤
      countOpen ((updDebts b)^[k] (sortDebtsBySnowball ds))
    rw [Function.iterate_succ_apply']
    exact walk_countOpen_le _ _ _
  · intro ds b k l i ra rl hkl hra hrl hend
    obtain ⟨wdk, hrowk, hwdk⟩ := planRow_mem ds b k i ra hra
    obtain ⟨d2, hupd, hbal⟩ := month_row_closes b wdk i ra hrowk hend
    obtain ⟨wdl, hrowl, hwdl⟩ := planRow_mem ds b l i rl hrl
    have hiter : ∀ j, ((updDebts b)^[j + (k + 1)] (sortDebtsBySnowball ds))[i]? =
        some d2 := by
      intro j
      rw [Function.iterate_add_apply]
      apply updDebts_iter_closed b _ i d2 _ hbal
      rw [Function.iterate_succ_apply', ← hwdk]
      exact hupd
    have hl : wdl[i]? = some d2 := by
      rw [hwdl, show l = (l - (k + 1)) + (k + 1) by omega]
      exact hiter (l - (k + 1))
    have := month_row_of_closed b wdl i d2 hl hbal
    rw [monthWalk] at hrowl
    rw [monthWalk] at this
    rw [this] at hrowl
    have hrl2 : rl = closedRow d2 := (Option.some_inj.mp hrowl).symm
    subst hrl2
    exact ⟨rfl, rfl, rfl, rfl⟩

set_option maxRecDepth 40000 in
/-- C6 witness: instantiated on the two-month rollover scenario, where
`dSmall` closes in month 1. -/
theorem C6_witness :
    moSecond.remainingDebts ≤ moFirst.remainingDebts ∧
    (rowA2.startingBalance = 0 ∧ rowA2.payment = 0 ∧ rowA2.endingBalance = 0 ∧
      rowA2.isCompleted = true) :=
  ⟨C6_monotone_and_persistent.1 [dSmall, dBig] 100 0 moFirst moSecond
      (by decide) (by decide),
   C6_monotone_and_persistent.2 [dSmall, dBig] 100 0 1 0 rowA1 rowA2
      (by omega) (by decide) (by decide) (by decide)⟩

/-- C7: the snowball ordering is a permutation of the input sorted
ascending by balance, stable on equal balances (the sublist of rows with
any given balance is kept in input order), and the attack order is fixed:
every month's ledger rows carry exactly the ids of the sorted debts, in
that order, for the whole simulation. -/
theorem C7_sort_contract :
    (∀ ds : List Debt, (sortDebtsBySnowball ds).Perm ds) ∧
    (∀ ds : List Debt, (sortDebtsBySnowball ds).Pairwise balLE) ∧
    (∀ (ds : List Debt) (q : ℚ),
      (sortDebtsBySnowball ds).filter (fun d => decide (d.balance = q)) =
        ds.filter (fun d => decide (d.balance = q))) ∧
    (∀ (ds : List Debt) (b : ℚ) (k : ℕ) (mo : PaymentMonth),
      planMonth ds b k = some mo →
      mo.debts.map DebtRow.id = (sortDebtsBySnowball ds).map Debt.id) := by
  refine ⟨fun ds => List.perm_insertionSort balLE ds,
    fun ds => List.sorted_insertionSort balLE ds, ?_, ?_⟩
  · intro ds q
    have hpair : (ds.filter fun d => decide (d.balance = q)).Pairwise balLE := by
      apply List.pairwise_of_forall_mem_list
      intro a ha c hc
      have ha2 : a.balance = q := of_decide_eq_true (List.mem_filter.mp ha).2
      have hc2 : c.balance = q := of_decide_eq_true (List.mem_filter.mp hc).2
      show a.balance ≤ c.balance
      rw [ha2, hc2]
    have hsub : List.Sublist (ds.filter fun d => decide (d.balance = q))
        (sortDebtsBySnowball ds) :=
      List.sublist_insertionSort hpair (List.filter_sublist ds)
    have hsub2 : List.Sublist (ds.filter fun d => decide (d.balance = q))
        ((sortDebtsBySnowball ds).filter (fun d => decide (d.balance = q))) := by
      have := hsub.filter (fun d => decide (d.balance = q))
      rwa [List.filter_eq_self.mpr (fun a ha => (List.mem_filter.mp ha).2)] at this
    have hlen : ((sortDebtsBySnowball ds).filter
        (fun d => decide (d.balance = q))).length =
        (ds.filter fun d => decide (d.balance = q)).length :=
      ((List.perm_insertionSort balLE ds).filter _).length_eq
    exact (hsub2.eq_of_length hlen.symm).symm
  · intro ds b k mo hmo
    have h := planMonth_some ds b k mo hmo
    subst h
    show ((monthWalk b ((updDebts b)^[k] (sortDebtsBySnowball ds))).rows).map
      DebtRow.id = (sortDebtsBySnowball ds).map Debt.id
    rw [monthWalk]
    rw [(walk_ids _ _ _).1]
    exact updDebts_iter_ids b (sortDebtsBySnowball ds) k

set_option maxRecDepth 40000 in
/-- C7 witness: the fixed attack order instantiated on the rollover
scenario. -/
theorem C7_witness :
    moFirst.debts.map DebtRow.id =
      (sortDebtsBySnowball [dSmall, dBig]).map Debt.id :=
  C7_sort_contract.2.2.2 [dSmall, dBig] 100 0 moFirst (by decide)

/-- C8: an empty debt list, or any non-positive budget, returns a normal
empty result: no failure, empty plan, zero months and totals, and the
debt-free date equal to the nominal start date (offset 0). -/
theorem C8_degenerate (ds : List Debt) (b : ℚ) (h : ds = [] ∨ b ≤ 0) :
    calculateSnowballPlan ds b =
      .ok { paymentPlan := [], totalMonths := 0, totalInterest := 0,
            totalPaid := 0, debtFreeDate := 0 } := by
  rw [calculateSnowballPlan, if_pos]
  rcases h with h | h
  · exact Or.inl (by rw [h]; rfl)
  · exact Or.inr h

/-- C8 witness: the empty debt list with a positive budget. -/
theorem C8_witness :
    calculateSnowballPlan [] 5 =
      .ok { paymentPlan := [], totalMonths := 0, totalInterest := 0,
            totalPaid := 0, debtFreeDate := 0 } :=
  C8_degenerate [] 5 (Or.inl rfl)

set_option maxRecDepth 40000 in
/-- C1 (code defect): on `[dSmall, dBig]` with budget 100 and minimum
total 60, the extra 40 goes to `dSmall`, whose payment is capped at its
payoff 30, leaving surplus 20 — yet `dBig`, the next open debt of the same
month, pays only its minimum 50: the `appliedExtraThisMonth` flag is
already set, so the surplus put back into `extraAmount` is never granted
to any later debt that month. -/
theorem C1_rollover_lost :
    planRow [dSmall, dBig] 100 0 0 = some rowA1 ∧
    planRow [dSmall, dBig] 100 0 1 = some rowB1 ∧
    minimumTotal (sortDebtsBySnowball [dSmall, dBig]) = 60 ∧
    rowA1.payment = 30 ∧
    dSmall.minimumPayment + (100 - 60) - rowA1.payment = 20 ∧
    rowA1.isCompleted = true ∧
    rowB1.payment = dBig.minimumPayment ∧
    ¬ rowB1.payment = dBig.minimumPayment + 20 := by
  decide

set_option maxRecDepth 40000 in
/-- C4 (code defect): in month 1 of the same scenario the booked
`totalPayment` is 80, strictly below the budget 100, although the budget
covers the minimum total 60, a debt (`dSmall`) completes mid-month, and a
later debt (`dBig`) is still open — the lost rollover surplus makes the
month under-spend even though the completing debt was not the last open
one. -/
theorem C4_budget_not_conserved :
    planMonth [dSmall, dBig] 100 0 = some moFirst ∧
    moFirst.totalPayment = 80 ∧ (80:ℚ) < 100 ∧
    minimumTotal (sortDebtsBySnowball [dSmall, dBig]) = 60 ∧ (60:ℚ) ≤ 100 ∧
    rowA1.isCompleted = true ∧
    rowB1.endingBalance = 50 ∧ (0:ℚ) < 50 := by
  decide

set_option maxRecDepth 40000 in
/-- C9 counterexample: `dEps` has positive balance (0.01), positive
minimum payment and positive rate, and its minimum does not exceed its
monthly interest, yet its baseline month count is 0, not 600 — the
baseline loop only runs while the balance exceeds the 1-cent epsilon. -/
theorem C9_counterexample :
    0 < dEps.balance ∧ 0 < dEps.minimumPayment ∧ 0 < dEps.interestRate ∧
    dEps.minimumPayment ≤ calculateMonthlyInterest dEps.balance dEps.interestRate ∧
    minOnlyMonths dEps = 0 ∧ (calculateMinimumOnlyPlan [dEps]).totalMonths = 0 ∧
    ¬ ((0:ℤ) = 600) := by
  decide

/-- C9 (amended): the baseline never raises an error (it is a total
function); every debt whose balance exceeds the 1-cent loop threshold,
with positive minimum and positive rate, whose minimum payment does not
exceed its monthly accrued interest gets its month count clamped to
exactly 600 in-band; and the aggregate `totalMonths` is the maximum of
the per-debt month counts (an upper bound of all of them, attained by one
of them unless it is 0). -/
theorem C9_baseline_clamp :
    (∀ d : Debt, 1 / 100 < d.balance → 0 < d.minimumPayment →
      0 < d.interestRate →
      d.minimumPayment ≤ calculateMonthlyInterest d.balance d.interestRate →
      minOnlyMonths d = 600) ∧
    (∀ (ds : List Debt) (d : Debt), d ∈ ds → ¬ minOnlySkip d →
      minOnlyMonths d ≤ (calculateMinimumOnlyPlan ds).totalMonths) ∧
    (∀ ds : List Debt, (calculateMinimumOnlyPlan ds).totalMonths = 0 ∨
      ∃ d ∈ ds, ¬ minOnlySkip d ∧
        minOnlyMonths d = (calculateMinimumOnlyPlan ds).totalMonths) := by
  refine ⟨?_, minOnlyPlan_months_le, minOnlyPlan_months_attained⟩
  intro d hb hmp hr hmin
  apply minOnly_nonconvergent d hb
  · positivity
  · calc d.minimumPayment
        ≤ calculateMonthlyInterest d.balance d.interestRate := hmin
      _ = d.balance * (d.interestRate / 100 / 12) := by
          unfold calculateMonthlyInterest; ring

/-- C9 witness: `dStuck` (balance 100, rate 24, minimum 1, interest 2) is
clamped to 600 months, which bounds and is attained by the aggregate. -/
theorem C9_witness :
    minOnlyMonths dStuck = 600 ∧
    minOnlyMonths dStuck ≤ (calculateMinimumOnlyPlan [dStuck]).totalMonths :=
  ⟨C9_baseline_clamp.1 dStuck (by norm_num [dStuck]) (by norm_num [dStuck])
      (by norm_num [dStuck])
      (by norm_num [dStuck, calculateMonthlyInterest]),
   C9_baseline_clamp.2.1 [dStuck] dStuck (List.mem_singleton.mpr rfl)
      (by norm_num [minOnlySkip, dStuck])⟩

set_option maxRecDepth 40000 in
/-- C10 counterexample: the month-1 row of `dTrickle` has payment 9.996
strictly below its rounded interest 10, yet its booked `principalPaid` is
0 (not negative) and its `endingBalance` equals (does not exceed) its
`startingBalance`: a shortfall of less than half a cent rounds to a zero
principal. -/
theorem C10_counterexample :
    planRow [dFirst, dTrickle] (109996 / 1000) 0 1 = some rowD1 ∧
    rowD1.payment < rowD1.interestPaid ∧
    ¬ rowD1.principalPaid < 0 ∧
    ¬ rowD1.startingBalance < rowD1.endingBalance := by
  decide

/-- C10 (amended): a row of an open debt paying less than its rounded
monthly interest books a nonpositive (rather than strictly negative)
principal, and its balance does not decrease (`endingBalance ≥
startingBalance` whenever the starting balance is a whole number of
cents); when the payment falls a full cent or more below the rounded
interest the principal is strictly negative and the balance strictly
grows.  No error or non-convergence signal is raised for such a debt: a
single such debt runs to the safety ceiling and returns a normal
601-month plan. -/
theorem C10_negative_amortization :
    (∀ (ds : List Debt) (b : ℚ) (k i : ℕ) (row : DebtRow),
      planRow ds b k i = some row → 0 < row.startingBalance →
      (row.payment < row.interestPaid →
        row.principalPaid ≤ 0 ∧
        (twoDec row.startingBalance →
          row.startingBalance ≤ row.endingBalance)) ∧
      (row.payment ≤ row.interestPaid - 1 / 100 →
        row.principalPaid < 0 ∧ row.startingBalance < row.endingBalance)) ∧
    (calculateSnowballPlan [growDebt 20000] 100).toOption.map
      SnowballResult.totalMonths = some 601 := by
  constructor
  · intro ds b k i row h hpos
    have hok := planRow_ok ds b k i row h
    obtain ⟨hpr, hen⟩ := hok.2.2.2.2.2 hpos
    constructor
    · intro hlt
      have hple : row.principalPaid ≤ 0 := by
        rw [hpr, ← round2_zero]
        exact round2_mono (by linarith)
      refine ⟨hple, ?_⟩
      intro htd
      rw [hen, max_eq_right (by linarith)]
      calc row.startingBalance = round2 row.startingBalance :=
            (round2_eq_self htd).symm
        _ ≤ round2 (row.startingBalance - row.principalPaid) :=
            round2_mono (by linarith)
    · intro hle
      have hple : row.principalPaid ≤ -(1 / 100) := by
        rw [hpr, show -(1/100 : ℚ) = round2 (-(1/100)) from
          (round2_eq_self ⟨-1, by norm_num⟩).symm]
        exact round2_mono (by linarith)
      have heps := jsEps_pos
      have heps2 := jsEps_small
      have hgt := lt_round2 (row.startingBalance - row.principalPaid)
      refine ⟨by linarith, ?_⟩
      rw [hen, max_eq_right (by linarith)]
      linarith
  · exact grow_run 20000 (by norm_num) ⟨2000000, by norm_num⟩

set_option maxRecDepth 40000 in
/-- C10 witness: the amended row property instantiated on the month-1 row
of `dDeep`, whose payment 5 is a full 5 below its rounded interest 10. -/
theorem C10_witness :
    (rowE1.payment < rowE1.interestPaid →
      rowE1.principalPaid ≤ 0 ∧
      (twoDec rowE1.startingBalance →
        rowE1.startingBalance ≤ rowE1.endingBalance)) ∧
    (rowE1.payment ≤ rowE1.interestPaid - 1 / 100 →
      rowE1.principalPaid < 0 ∧ rowE1.startingBalance < rowE1.endingBalance) :=
  C10_negative_amortization.1 [dFirst, dDeep] 155 0 1 rowE1 (by decide)
    (by norm_num [rowE1])

end DebtCalc
